import Mathlib

/-!
Verification of the arpeggio virtual-piano playback core (src/main.py).

The repository ships the main game loop fully implemented, while the four
helper functions `midi_to_note_name`, `load_midi_file`, `find_first_note_after`
and `play_note_with_limiter` are declared with detailed docstrings but have no
bodies (`pass` stubs).  Those four are therefore modelled from the spec (and
their in-source docstrings); the main-loop logic (per-frame MIDI advance and
the space-key start/resume/pause handler) is embedded directly from the code.

Timestamps are Python floats (seconds accumulated, then `* 1000`); they are
modelled as rationals.  Pygame tick counts are also modelled as rationals so
that `now_ms = ticks - playback_start_time` (a float in Python once a resume
has happened) is uniform.
-/

namespace Arpeggio

/-- `NOTE_NAMES` constant from src/main.py line 164. -/
def NOTE_NAMES : List String :=
  ["C", "C#", "D", "D#", "E", "F"] ++ ["F#", "G", "G#", "A", "A#", "B"]

/-- `LIMITER_THRESHOLD` constant from src/main.py line 181. -/
def LIMITER_THRESHOLD : Nat := 16

/-- `BASE_NOTE_VOLUME` constant from src/main.py line 182. -/
noncomputable def BASE_NOTE_VOLUME : ℝ := 0.6

/-- Initial value of `playback_start_time` (src/main.py line 153):
`1000 * 60 * 2 + 15 * 1000` milliseconds, i.e. 2 minutes 15 seconds. -/
def initial_playback_start_time : ℚ := 1000 * 60 * 2 + 15 * 1000

/-- One entry of the global `playback_messages` list: a
`(time_in_ms, index, note_type, velocity)` tuple (src/main.py line 294). -/
structure PlaybackMsg where
  time_ms : ℚ
  index : Nat
  note_type : String
  velocity : Nat
deriving DecidableEq

/-- One message of the parsed MIDI file, as used by the decoder: a relative
time delta in seconds (`msg.time`), a type tag (`msg.type`), a pitch code
(`msg.note`) and a velocity (`msg.velocity`). -/
structure MidiMsg where
  time : ℚ
  type : String
  note : ℤ
  velocity : Nat
deriving DecidableEq

/-- Modelled from the spec: `midi_to_note_name` (src/main.py lines 213-257) is
a stub (`pass`); this follows its docstring and spec §4.1.  Out-of-range input
yields `none`; otherwise `octave = midi_num // 12 - 1`,
`note_index = midi_num % 12`, and the result is the f-string
`NOTE_NAMES[note_index]` + decimal octave. -/
def midi_to_note_name (midi_num : ℤ) : Option String :=
  if midi_num < 0 ∨ 127 < midi_num then none
  else
    some (NOTE_NAMES.getD (midi_num % 12).toNat "" ++ toString (midi_num / 12 - 1))

/-- The mutable playback globals touched by `load_midi_file`
(src/main.py lines 152-155). -/
structure PlaybackGlobals where
  playback_messages : List PlaybackMsg
  current_msg_index : Nat
  playback_active : Bool
deriving DecidableEq

/-- Ordering of playback events by timestamp, used for the decoder's final
sort. -/
def noteTimeLE (a b : PlaybackMsg) : Prop :=
  a.time_ms ≤ b.time_ms

instance : DecidableRel noteTimeLE :=
  fun a b => inferInstanceAs (Decidable (a.time_ms ≤ b.time_ms))

instance : IsTotal PlaybackMsg noteTimeLE :=
  ⟨fun a b => le_total a.time_ms b.time_ms⟩

instance : IsTrans PlaybackMsg noteTimeLE :=
  ⟨fun _ _ _ hab hbc => le_trans hab hbc⟩

/-- Modelled from the spec: the per-message body of `load_midi_file`
(src/main.py lines 260-320), whose implementation is missing (`pass` stub).
Following the docstring and spec §4.2: accumulate each message's time delta;
a `note_on` with strictly positive velocity whose pitch resolves through
`midi_to_note_name` to a name in the black map (checked first) or the white
map emits a `(time_sec * 1000, index, note_type, velocity)` event; everything
else is skipped.  The note-name maps are parameters (they are built from
`piano_lists`, which is not part of the source under verification). -/
def decodeMessages (bm wm : String → Option Nat) :
    List MidiMsg → ℚ → List PlaybackMsg
  | [], _ => []
  | m :: rest, t =>
    if m.type = "note_on" ∧ 0 < m.velocity then
      match midi_to_note_name m.note with
      | some name =>
        match bm name with
        | some idx =>
            ⟨(t + m.time) * 1000, idx, "black", m.velocity⟩ ::
              decodeMessages bm wm rest (t + m.time)
        | none =>
          match wm name with
          | some idx =>
              ⟨(t + m.time) * 1000, idx, "white", m.velocity⟩ ::
                decodeMessages bm wm rest (t + m.time)
          | none => decodeMessages bm wm rest (t + m.time)
      | none => decodeMessages bm wm rest (t + m.time)
    else decodeMessages bm wm rest (t + m.time)

/-- Modelled from the spec: `load_midi_file` (src/main.py lines 260-320),
whose implementation is missing (`pass` stub).  Opening/parsing the file is
modelled by the `Option (List MidiMsg)` argument (`none` = the `except`
branch, which prints and returns `False` before touching any global).  On
success the decoded events are sorted by timestamp (stable, spec §4.2), the
cursor is reset to 0 and playback deactivated, and `True` is returned. -/
def load_midi_file (bm wm : String → Option Nat) (parsed : Option (List MidiMsg))
    (g : PlaybackGlobals) : Bool × PlaybackGlobals :=
  match parsed with
  | none => (false, g)
  | some msgs =>
      (true,
        { playback_messages := List.insertionSort noteTimeLE (decodeMessages bm wm msgs 0),
          current_msg_index := 0,
          playback_active := false })

/-- Modelled from the spec: `find_first_note_after` (src/main.py lines
323-363), whose implementation is missing (`pass` stub).  Per its docstring:
scan the list in order and return the index of the first entry whose
timestamp is `>= time_ms`; return the length if none qualifies (0 on an
empty list). -/
def find_first_note_after : List PlaybackMsg → ℚ → Nat
  | [], _ => 0
  | m :: rest, t => if t ≤ m.time_ms then 0 else find_first_note_after rest t + 1

/-- Modelled from the spec: the limiter factor computed inside
`play_note_with_limiter` (src/main.py lines 366-442, `pass` stub).  Per the
docstring: start at `1.0`; if `num_playing > LIMITER_THRESHOLD`,
`ratio = LIMITER_THRESHOLD / num_playing` and the factor is `sqrt(ratio)`. -/
noncomputable def limiter_factor (num_playing : Nat) : ℝ :=
  if LIMITER_THRESHOLD < num_playing then
    Real.sqrt ((LIMITER_THRESHOLD : ℝ) / (num_playing : ℝ))
  else 1

/-- Modelled from the spec: velocity clamped to `[0, 127]` before the
division (spec §4.5 step 4). -/
def clampVelocity (velocity : ℤ) : ℤ :=
  max 0 (min velocity 127)

/-- Modelled from the spec: the final volume computed inside
`play_note_with_limiter`: `(BASE_NOTE_VOLUME * limiter_factor) *
velocity_factor` with `velocity_factor = velocity / 127.0`. -/
noncomputable def final_volume (num_playing : Nat) (velocity : ℤ) : ℝ :=
  BASE_NOTE_VOLUME * limiter_factor num_playing * ((clampVelocity velocity : ℝ) / 127)

/-- Outcome of one `play_note_with_limiter` call: `played = some (ch, gain)`
when a channel `ch` was obtained and its volume set to `gain` before playing,
`played = none` when the note was dropped; `active` is the value of
`g_active_channels` (as a list of channel ids) after the call. -/
structure TriggerOutcome where
  played : Option (Nat × ℝ)
  active : List Nat

/-- Modelled from the spec: `play_note_with_limiter` (src/main.py lines
366-442), whose implementation is missing (`pass` stub).  `active` is the
entry value of `g_active_channels`; `free_channel` is the result of
`pygame.mixer.find_channel()` (`none` when every channel is busy).  With a
channel: set its volume to `final_volume`, play the sound on it, append it to
the active list.  Without: print a warning and drop the note, touching
nothing. -/
noncomputable def play_note_with_limiter (active : List Nat)
    (free_channel : Option Nat) (velocity : ℤ) : TriggerOutcome :=
  match free_channel with
  | none => ⟨none, active⟩
  | some ch => ⟨some (ch, final_volume active.length velocity), active ++ [ch]⟩

/-- Default tuple used to express list indexing totally (the Python code only
indexes in-bounds). -/
def defaultMsg : PlaybackMsg :=
  ⟨0, 0, "", 0⟩

/-- The playback-related globals read and written by the main game loop
(src/main.py lines 152-155): the track, the cursor, the active flag and the
transport anchor `playback_start_time`. -/
structure LoopState where
  playback_messages : List PlaybackMsg
  current_msg_index : Nat
  playback_active : Bool
  playback_start_time : ℚ
deriving DecidableEq

/-- The inner `while` loop of the MIDI playback section (src/main.py lines
667-686), viewed from the cursor's suffix of `playback_messages`: it
triggers (and steps past) every leading message whose `msg_time_ms`
satisfies `now_ms >= msg_time_ms`, and breaks at the first message still in
the future.  Returns the list of triggered messages in order. -/
def advanceList (now_ms : ℚ) : List PlaybackMsg → List PlaybackMsg
  | [] => []
  | m :: rest => if m.time_ms ≤ now_ms then m :: advanceList now_ms rest else []

/-- The messages triggered by one frame's MIDI playback section, given the
current tick count:  `now_ms = pygame.time.get_ticks() - playback_start_time`
(src/main.py line 665), then the inner while loop starting at
`current_msg_index`. -/
def frameTriggers (s : LoopState) (ticks : ℚ) : List PlaybackMsg :=
  advanceList (ticks - s.playback_start_time)
    (s.playback_messages.drop s.current_msg_index)

/-- The whole MIDI playback section of one frame (src/main.py lines 664-691):
guarded by `playback_active and current_msg_index < len(playback_messages)`;
the inner loop advances the cursor past every due message, and if the cursor
reaches the end, playback is deactivated and `playback_start_time` zeroed.
Returns the new state together with the triggered messages. -/
def midiPlaybackFrame (s : LoopState) (ticks : ℚ) : LoopState × List PlaybackMsg :=
  if s.playback_active = true ∧ s.current_msg_index < s.playback_messages.length then
    if s.playback_messages.length ≤ s.current_msg_index + (frameTriggers s ticks).length then
      ({ s with
          current_msg_index := s.current_msg_index + (frameTriggers s ticks).length,
          playback_active := false,
          playback_start_time := 0 }, frameTriggers s ticks)
    else
      ({ s with
          current_msg_index := s.current_msg_index + (frameTriggers s ticks).length },
        frameTriggers s ticks)
  else (s, [])

/-- The play/pause/restart part of the `K_SPACE` handler (src/main.py lines
763-792), entered with `midi_loaded` true.  If playback is inactive and the
cursor is at 0 or at/past the end, it is a fresh start/restart: the cursor
is set by seeking to `START_MS = playback_start_time` via
`find_first_note_after`, and the anchor becomes `ticks - START_MS`.  If the
cursor is strictly inside the track, it is a resume: the anchor becomes
`ticks` minus the timestamp of the next unplayed message.  If playback is
active, it is paused. -/
def spaceToggle (s : LoopState) (ticks : ℚ) : LoopState :=
  if s.playback_active = true then
    { s with playback_active := false }
  else if s.current_msg_index = 0 ∨ s.playback_messages.length ≤ s.current_msg_index then
    { s with
        playback_active := true,
        current_msg_index := find_first_note_after s.playback_messages s.playback_start_time,
        playback_start_time := ticks - s.playback_start_time }
  else
    { s with
        playback_active := true,
        playback_start_time :=
          ticks - (s.playback_messages.getD s.current_msg_index defaultMsg).time_ms }

/-- Running absolute-time accumulator of the decoder: pairs each message with
the accumulated time (in seconds) at which it occurs. -/
def accumTimes (t : ℚ) : List MidiMsg → List (ℚ × MidiMsg)
  | [] => []
  | m :: rest => (t + m.time, m) :: accumTimes (t + m.time) rest

/-- Spec-side description of which messages emit an event (C5's words): the
message type is `note_on`, the velocity is strictly positive, and the pitch
resolves via `midi_to_note_name` to a name present in the black map or the
white map. -/
def isTrigger (bm wm : String → Option Nat) (m : MidiMsg) : Prop :=
  m.type = "note_on" ∧ 0 < m.velocity ∧
    ∃ name, midi_to_note_name m.note = some name ∧
      ((bm name).isSome = true ∨ (wm name).isSome = true)

instance (bm wm : String → Option Nat) (m : MidiMsg) : Decidable (isTrigger bm wm m) := by
  unfold isTrigger
  exact inferInstanceAs (Decidable (_ ∧ _ ∧ ∃ name, _ = some name ∧ (_ ∨ _)))

/-- Spec-side emission of a single message at its accumulated time: the
event carries `time_offset_ms = accumulated_seconds * 1000`, the index from
the black map (preferred) or the white map, and the message's velocity. -/
def specEmit (bm wm : String → Option Nat) (p : ℚ × MidiMsg) : Option PlaybackMsg :=
  if p.2.type = "note_on" ∧ 0 < p.2.velocity then
    match midi_to_note_name p.2.note with
    | none => none
    | some name =>
      match bm name with
      | some idx => some ⟨p.1 * 1000, idx, "black", p.2.velocity⟩
      | none =>
        match wm name with
        | some idx => some ⟨p.1 * 1000, idx, "white", p.2.velocity⟩
        | none => none
  else none

/-- Spec-side decoder (refinement target for C5): pair each message with its
accumulated absolute time, then emit events via `specEmit`. -/
def decodeSpec (bm wm : String → Option Nat) (t : ℚ) (msgs : List MidiMsg) :
    List PlaybackMsg :=
  (accumTimes t msgs).filterMap (specEmit bm wm)

/-- The example track of spec §8 / the `find_first_note_after` docstring:
notes at times 1000, 2000, 3000, 4000 ms. -/
def exTrack : List PlaybackMsg :=
  [⟨1000, 0, "white", 80⟩, ⟨2000, 1, "black", 90⟩,
   ⟨3000, 2, "white", 100⟩, ⟨4000, 3, "white", 110⟩]

/-- Concrete black-key note map for examples: no black keys mapped. -/
def bmEx : String → Option Nat :=
  fun _ => none

/-- Concrete white-key note map for examples: middle C only, at white-key
index 23 (its position on a 52-white-key piano). -/
def wmEx : String → Option Nat :=
  fun name => if name = "C4" then some 23 else none

/-- Concrete MIDI message list for examples: two middle-C presses, one second
apart. -/
def exMidi : List MidiMsg :=
  [⟨1, "note_on", 60, 100⟩, ⟨1, "note_on", 60, 90⟩]

/-- Playback globals before any load, for examples. -/
def g0 : PlaybackGlobals :=
  ⟨[], 0, false⟩

/-- A loop state at the very first start: track loaded, cursor 0, inactive,
`playback_start_time` still at its initial 135000 ms value. -/
def ex8 : LoopState :=
  ⟨[⟨1000, 0, "white", 100⟩, ⟨2000, 1, "white", 100⟩], 0, false,
    initial_playback_start_time⟩

/-- A loop state with one due message, playing, anchored at tick 0. -/
def exPlay : LoopState :=
  ⟨[⟨100, 0, "white", 64⟩], 0, true, 0⟩

/-- A loop state paused mid-track: cursor strictly between 0 and the
length. -/
def exPause : LoopState :=
  ⟨[⟨1000, 0, "white", 50⟩, ⟨2000, 1, "black", 60⟩], 1, false, 0⟩

theorem find_first_note_after_le_length (msgs : List PlaybackMsg) (t : ℚ) :
    find_first_note_after msgs t ≤ msgs.length := by
  induction msgs with
  | nil => simp [find_first_note_after]
  | cons m rest ih =>
    by_cases h : t ≤ m.time_ms
    · simp [find_first_note_after, h]
    · simp only [find_first_note_after, if_neg h, List.length_cons]
      omega

theorem find_first_note_after_earlier (msgs : List PlaybackMsg) (t : ℚ) (j : Nat)
    (hj : j < find_first_note_after msgs t) :
    (msgs.getD j defaultMsg).time_ms < t := by
  induction msgs generalizing j with
  | nil => simp [find_first_note_after] at hj
  | cons m rest ih =>
    by_cases h : t ≤ m.time_ms
    · simp [find_first_note_after, h] at hj
    · cases j with
      | zero =>
        simp only [List.getD_cons_zero]
        exact not_le.mp h
      | succ j =>
        simp only [find_first_note_after, if_neg h] at hj
        simp only [List.getD_cons_succ]
        exact ih j (by omega)

theorem find_first_note_after_found (msgs : List PlaybackMsg) (t : ℚ)
    (h : find_first_note_after msgs t < msgs.length) :
    t ≤ (msgs.getD (find_first_note_after msgs t) defaultMsg).time_ms := by
  induction msgs with
  | nil => simp [find_first_note_after] at h
  | cons m rest ih =>
    by_cases hm : t ≤ m.time_ms
    · simp only [find_first_note_after, if_pos hm, List.getD_cons_zero]
      exact hm
    · simp only [find_first_note_after, if_neg hm, List.length_cons] at h ⊢
      simp only [List.getD_cons_succ]
      exact ih (by omega)

/-- C3: `find_first_note_after(time_ms)` returns the smallest index `i` with
`playback_messages[i]`'s timestamp `>= time_ms` (the length when no such
index exists, 0 on the empty list); on times `[1000,2000,3000,4000]` the
query 2500 returns 2 and the query 5000 returns 4. -/
theorem find_first_note_after_correct (msgs : List PlaybackMsg) (t : ℚ) :
    find_first_note_after msgs t ≤ msgs.length ∧
    (∀ j, j < find_first_note_after msgs t → (msgs.getD j defaultMsg).time_ms < t) ∧
    (find_first_note_after msgs t < msgs.length →
      t ≤ (msgs.getD (find_first_note_after msgs t) defaultMsg).time_ms) ∧
    find_first_note_after [] t = 0 ∧
    find_first_note_after exTrack 2500 = 2 ∧
    find_first_note_after exTrack 5000 = 4 :=
  ⟨find_first_note_after_le_length msgs t,
   fun j hj => find_first_note_after_earlier msgs t j hj,
   find_first_note_after_found msgs t,
   rfl, by decide, by decide⟩

/-- Witness for C3 at the docstring's example track: index 0 lies before the
result of the query 2500, so its timestamp is below 2500; and the result 2 of
that query is in bounds and carries a timestamp at or after 2500. -/
theorem find_first_note_after_correct_witness :
    (0 < find_first_note_after exTrack 2500 ∧
      (exTrack.getD 0 defaultMsg).time_ms < 2500) ∧
    (find_first_note_after exTrack 2500 < exTrack.length ∧
      (2500 : ℚ) ≤ (exTrack.getD (find_first_note_after exTrack 2500) defaultMsg).time_ms) :=
  ⟨⟨by decide, (find_first_note_after_correct exTrack 2500).2.1 0 (by decide)⟩,
   ⟨by decide, (find_first_note_after_correct exTrack 2500).2.2.1 (by decide)⟩⟩

/-- C6: a failed load returns `False` and leaves `playback_messages`,
`current_msg_index` and `playback_active` exactly as they were. -/
theorem load_midi_file_failure_preserves (bm wm : String → Option Nat)
    (g : PlaybackGlobals) :
    (load_midi_file bm wm none g).1 = false ∧
    (load_midi_file bm wm none g).2.playback_messages = g.playback_messages ∧
    (load_midi_file bm wm none g).2.current_msg_index = g.current_msg_index ∧
    (load_midi_file bm wm none g).2.playback_active = g.playback_active :=
  ⟨rfl, rfl, rfl, rfl⟩

/-- C7: for `0 <= p <= 127`, `midi_to_note_name p` is
`NOTE_NAMES[p % 12]` followed by the decimal octave `p / 12 - 1` (so 60, 61,
72 give "C4", "C#4", "C5"); outside that range it returns `None`. -/
theorem midi_to_note_name_correct :
    (∀ p : ℤ, 0 ≤ p → p ≤ 127 →
      midi_to_note_name p =
        some (NOTE_NAMES.getD (p % 12).toNat "" ++ toString (p / 12 - 1))) ∧
    (∀ p : ℤ, p < 0 ∨ 127 < p → midi_to_note_name p = none) ∧
    midi_to_note_name 60 = some "C4" ∧
    midi_to_note_name 61 = some "C#4" ∧
    midi_to_note_name 72 = some "C5" := by
  refine ⟨fun p h0 h127 => ?_, fun p h => ?_, by decide, by decide, by decide⟩
  · rw [midi_to_note_name, if_neg]
    push_neg
    exact ⟨h0, h127⟩
  · rw [midi_to_note_name, if_pos h]

/-- Witness for C7 at `p = 60` (in range, giving "C4") and `p = 128` (out of
range, giving absence). -/
theorem midi_to_note_name_correct_witness :
    ((0 : ℤ) ≤ 60 ∧
      midi_to_note_name 60 =
        some (NOTE_NAMES.getD ((60 : ℤ) % 12).toNat "" ++ toString ((60 : ℤ) / 12 - 1))) ∧
    ((127 : ℤ) < 128 ∧ midi_to_note_name 128 = none) :=
  ⟨⟨by decide, midi_to_note_name_correct.1 60 (by decide) (by decide)⟩,
   ⟨by decide, midi_to_note_name_correct.2.1 128 (Or.inr (by decide))⟩⟩

/-- C9: with every channel busy (`find_channel` returns `None`), the trigger
plays nothing and leaves the active channel list unchanged. -/
theorem play_note_voice_exhausted (active : List Nat) (v : ℤ) :
    (play_note_with_limiter active none v).played = none ∧
    (play_note_with_limiter active none v).active = active :=
  ⟨rfl, rfl⟩

theorem limiter_factor_eq (n : Nat) :
    limiter_factor n = if n ≤ 16 then (1 : ℝ) else Real.sqrt (16 / (n : ℝ)) := by
  by_cases h : n ≤ 16
  · rw [limiter_factor, if_neg (by simp [LIMITER_THRESHOLD]; omega), if_pos h]
  · rw [limiter_factor, if_pos (by simp [LIMITER_THRESHOLD]; omega), if_neg h]
    norm_num [LIMITER_THRESHOLD]

/-- C1: with `n` active voices at entry, the gain set on the obtained
channel is `0.6 * limiter_factor * (velocity / 127)` with the velocity
clamped to `[0,127]`, where `limiter_factor` is 1 for `n <= 16` and
`sqrt(16 / n)` beyond; in particular 8 voices give factor 1 and 32 voices
give `sqrt(0.5)`. -/
theorem play_note_gain_formula (active : List Nat) (ch : Nat) (v : ℤ) :
    (play_note_with_limiter active (some ch) v).played =
      some (ch,
        (0.6 : ℝ) *
          (if active.length ≤ 16 then (1 : ℝ)
            else Real.sqrt (16 / (active.length : ℝ))) *
          (((max 0 (min v 127) : ℤ) : ℝ) / 127)) ∧
    limiter_factor 8 = 1 ∧
    limiter_factor 32 = Real.sqrt 0.5 := by
  refine ⟨?_, ?_, ?_⟩
  · show some (ch, final_volume active.length v) = _
    rw [final_volume, limiter_factor_eq, BASE_NOTE_VOLUME, clampVelocity]
  · rw [limiter_factor_eq]
    norm_num
  · rw [limiter_factor_eq]
    norm_num

theorem load_midi_file_sorted (bm wm : String → Option Nat) (msgs : List MidiMsg)
    (g : PlaybackGlobals) :
    List.Sorted noteTimeLE ((load_midi_file bm wm (some msgs) g).2.playback_messages) :=
  List.sorted_insertionSort noteTimeLE (decodeMessages bm wm msgs 0)

/-- C4: a successful load returns `True` and its `playback_messages` list is
sorted non-decreasing by timestamp: any earlier index carries a timestamp at
most that of any later index. -/
theorem load_midi_file_result_sorted (bm wm : String → Option Nat)
    (msgs : List MidiMsg) (g : PlaybackGlobals) (i j : Nat) (hij : i < j)
    (hj : j < ((load_midi_file bm wm (some msgs) g).2.playback_messages).length) :
    (load_midi_file bm wm (some msgs) g).1 = true ∧
    (((load_midi_file bm wm (some msgs) g).2.playback_messages).getD i defaultMsg).time_ms ≤
      (((load_midi_file bm wm (some msgs) g).2.playback_messages).getD j defaultMsg).time_ms := by
  refine ⟨rfl, ?_⟩
  have hi : i < ((load_midi_file bm wm (some msgs) g).2.playback_messages).length :=
    lt_trans hij hj
  rw [List.getD_eq_getElem _ _ hi, List.getD_eq_getElem _ _ hj]
  exact List.pairwise_iff_getElem.mp (load_midi_file_sorted bm wm msgs g) i j hi hj hij

/-- Witness for C4: loading the two-press example file succeeds and yields
events whose first timestamp is at most the second. -/
theorem load_midi_file_result_sorted_witness :
    ((0 : Nat) < 1 ∧
      1 < ((load_midi_file bmEx wmEx (some exMidi) g0).2.playback_messages).length) ∧
    (((load_midi_file bmEx wmEx (some exMidi) g0).2.playback_messages).getD 0 defaultMsg).time_ms ≤
      (((load_midi_file bmEx wmEx (some exMidi) g0).2.playback_messages).getD 1 defaultMsg).time_ms := by
  have h60 : midi_to_note_name 60 = some "C4" := by decide
  have hlen :
      1 < ((load_midi_file bmEx wmEx (some exMidi) g0).2.playback_messages).length := by
    norm_num [load_midi_file, decodeMessages, h60, bmEx, wmEx, exMidi,
      List.insertionSort, List.orderedInsert, noteTimeLE]
  exact ⟨⟨by decide, hlen⟩,
    (load_midi_file_result_sorted bmEx wmEx exMidi g0 0 1 (by decide) hlen).2⟩

theorem decode_eq_spec (bm wm : String → Option Nat) (msgs : List MidiMsg) (t : ℚ) :
    decodeMessages bm wm msgs t = decodeSpec bm wm t msgs := by
  induction msgs generalizing t with
  | nil => rfl
  | cons m rest ih =>
    by_cases hc : m.type = "note_on" ∧ 0 < m.velocity
    · cases hname : midi_to_note_name m.note with
      | none =>
        simp [decodeMessages, decodeSpec, accumTimes, specEmit, hc, hname, ih]
      | some name =>
        cases hb : bm name with
        | some idx =>
          simp [decodeMessages, decodeSpec, accumTimes, specEmit, hc, hname, hb, ih]
        | none =>
          cases hw : wm name with
          | some idx =>
            simp [decodeMessages, decodeSpec, accumTimes, specEmit, hc, hname, hb, hw, ih]
          | none =>
            simp [decodeMessages, decodeSpec, accumTimes, specEmit, hc, hname, hb, hw, ih]
    · simp [decodeMessages, decodeSpec, accumTimes, specEmit, hc, ih]

theorem specEmit_isSome_iff (bm wm : String → Option Nat) (p : ℚ × MidiMsg) :
    (specEmit bm wm p).isSome = true ↔ isTrigger bm wm p.2 := by
  by_cases hc : p.2.type = "note_on" ∧ 0 < p.2.velocity
  · cases hname : midi_to_note_name p.2.note with
    | none => simp [specEmit, isTrigger, hc, hname]
    | some name =>
      cases hb : bm name <;> cases hw : wm name <;>
        simp [specEmit, isTrigger, hc, hname, hb, hw]
  · rw [specEmit, if_neg hc]
    simp only [Option.isSome_none, Bool.false_eq_true, false_iff, isTrigger]
    tauto

theorem specEmit_some (bm wm : String → Option Nat) (p : ℚ × MidiMsg)
    (e : PlaybackMsg) (h : specEmit bm wm p = some e) :
    e.time_ms = p.1 * 1000 ∧ e.velocity = p.2.velocity := by
  rw [specEmit] at h
  split at h
  · split at h
    · exact absurd h (by simp)
    · split at h
      · cases h
        exact ⟨rfl, rfl⟩
      · split at h
        · cases h
          exact ⟨rfl, rfl⟩
        · exact absurd h (by simp)
  · exact absurd h (by simp)

theorem accumTimes_getD (t : ℚ) (msgs : List MidiMsg) (k : Nat)
    (hk : k < msgs.length) :
    ((accumTimes t msgs).getD k (0, ⟨0, "", 0, 0⟩)).1 =
      t + ((msgs.take (k + 1)).map MidiMsg.time).sum := by
  induction msgs generalizing t k with
  | nil => simp at hk
  | cons m rest ih =>
    cases k with
    | zero => simp [accumTimes]
    | succ k =>
      simp only [accumTimes, List.getD_cons_succ, List.take_succ_cons,
        List.map_cons, List.sum_cons]
      rw [ih (t + m.time) k (by simpa using Nat.lt_of_succ_lt_succ hk)]
      ring

/-- C5: the decoder emits an event for a message exactly when it is a
`note_on` of strictly positive velocity whose pitch resolves to a mapped
note name (velocity 0 and unmapped names are dropped silently), and each
event's timestamp is the accumulated delta-time sum in seconds times 1000:
`decodeMessages` coincides with the spec-side `decodeSpec`, emission is
characterized by `isTrigger`, and `accumTimes` carries the prefix sums. -/
theorem decode_matches_spec (bm wm : String → Option Nat) (msgs : List MidiMsg)
    (t : ℚ) :
    decodeMessages bm wm msgs t = decodeSpec bm wm t msgs ∧
    (∀ p : ℚ × MidiMsg, (specEmit bm wm p).isSome = true ↔ isTrigger bm wm p.2) ∧
    (∀ (p : ℚ × MidiMsg) (e : PlaybackMsg), specEmit bm wm p = some e →
      e.time_ms = p.1 * 1000 ∧ e.velocity = p.2.velocity) ∧
    (∀ k, k < msgs.length →
      ((accumTimes t msgs).getD k (0, ⟨0, "", 0, 0⟩)).1 =
        t + ((msgs.take (k + 1)).map MidiMsg.time).sum) :=
  ⟨decode_eq_spec bm wm msgs t, specEmit_isSome_iff bm wm,
   specEmit_some bm wm, fun k hk => accumTimes_getD t msgs k hk⟩

/-- Witness for C5: a concrete middle-C `note_on` at accumulated time 2 s is
emitted with timestamp `2 * 1000` and its own velocity, and the first prefix
sum of the example file is its first delta. -/
theorem decode_matches_spec_witness :
    (specEmit bmEx wmEx (2, ⟨1, "note_on", 60, 100⟩) =
        some ⟨2 * 1000, 23, "white", 100⟩ ∧
      (⟨2 * 1000, 23, "white", 100⟩ : PlaybackMsg).time_ms = (2 : ℚ) * 1000 ∧
      (⟨2 * 1000, 23, "white", 100⟩ : PlaybackMsg).velocity =
        (⟨1, "note_on", 60, 100⟩ : MidiMsg).velocity) ∧
    (0 < exMidi.length ∧
      ((accumTimes 0 exMidi).getD 0 (0, ⟨0, "", 0, 0⟩)).1 =
        0 + ((exMidi.take 1).map MidiMsg.time).sum) := by
  have h60 : midi_to_note_name 60 = some "C4" := by decide
  have hse : specEmit bmEx wmEx (2, ⟨1, "note_on", 60, 100⟩) =
      some ⟨2 * 1000, 23, "white", 100⟩ := by
    norm_num [specEmit, bmEx, wmEx, h60]
  refine ⟨⟨hse, ?_, ?_⟩, ⟨by decide, ?_⟩⟩
  · exact ((decode_matches_spec bmEx wmEx exMidi 0).2.2.1 _ _ hse).1
  · exact ((decode_matches_spec bmEx wmEx exMidi 0).2.2.1 _ _ hse).2
  · exact (decode_matches_spec bmEx wmEx exMidi 0).2.2.2 0 (by decide)

theorem mem_advanceList_le {now_ms : ℚ} {l : List PlaybackMsg} {m : PlaybackMsg}
    (h : m ∈ advanceList now_ms l) : m.time_ms ≤ now_ms := by
  induction l with
  | nil => simp [advanceList] at h
  | cons a rest ih =>
    by_cases ha : a.time_ms ≤ now_ms
    · rw [advanceList, if_pos ha] at h
      rcases List.mem_cons.mp h with rfl | h2
      · exact ha
      · exact ih h2
    · rw [advanceList, if_neg ha] at h
      simp at h

theorem advanceList_drop_nil (now_ms : ℚ) (l : List PlaybackMsg) :
    advanceList now_ms (l.drop (advanceList now_ms l).length) = [] := by
  induction l with
  | nil => simp [advanceList]
  | cons a rest ih =>
    by_cases ha : a.time_ms ≤ now_ms
    · rw [advanceList, if_pos ha]
      simp only [List.length_cons, List.drop_succ_cons]
      exact ih
    · rw [advanceList, if_neg ha]
      simp only [List.length_nil, List.drop_zero]
      rw [advanceList, if_neg ha]

theorem midiPlaybackFrame_snd (s : LoopState) (ticks : ℚ) :
    (midiPlaybackFrame s ticks).2 =
      if s.playback_active = true ∧ s.current_msg_index < s.playback_messages.length
      then frameTriggers s ticks else [] := by
  by_cases hA : s.playback_active = true ∧ s.current_msg_index < s.playback_messages.length
  · rw [midiPlaybackFrame, if_pos hA, if_pos hA]
    split <;> rfl
  · rw [midiPlaybackFrame, if_neg hA, if_neg hA]

/-- C2: per-frame playback advance never triggers an event whose timestamp
exceeds `now_ms = ticks - playback_start_time`; the cursor advances past
exactly the triggered events; and re-running the frame with the same tick
count and the resulting state triggers nothing again. -/
theorem midi_playback_frame_correct (s : LoopState) (ticks : ℚ) :
    (∀ m ∈ (midiPlaybackFrame s ticks).2, m.time_ms ≤ ticks - s.playback_start_time) ∧
    (midiPlaybackFrame s ticks).1.current_msg_index =
      s.current_msg_index + (midiPlaybackFrame s ticks).2.length ∧
    (midiPlaybackFrame (midiPlaybackFrame s ticks).1 ticks).2 = [] := by
  by_cases hA : s.playback_active = true ∧ s.current_msg_index < s.playback_messages.length
  · by_cases hB : s.playback_messages.length ≤
        s.current_msg_index + (frameTriggers s ticks).length
    · rw [midiPlaybackFrame, if_pos hA, if_pos hB]
      refine ⟨fun m hm => mem_advanceList_le hm, rfl, ?_⟩
      rw [midiPlaybackFrame_snd, if_neg (by simp)]
    · rw [midiPlaybackFrame, if_pos hA, if_neg hB]
      refine ⟨fun m hm => mem_advanceList_le hm, rfl, ?_⟩
      rw [midiPlaybackFrame_snd,
        if_pos ⟨hA.1, show s.current_msg_index + (frameTriggers s ticks).length <
          s.playback_messages.length from not_le.mp hB⟩]
      show advanceList (ticks - s.playback_start_time)
        (s.playback_messages.drop (s.current_msg_index + (frameTriggers s ticks).length)) = []
      rw [← List.drop_drop]
      exact advanceList_drop_nil (ticks - s.playback_start_time)
        (s.playback_messages.drop s.current_msg_index)
  · rw [midiPlaybackFrame, if_neg hA]
    exact ⟨by simp, by simp, by rw [midiPlaybackFrame_snd, if_neg hA]⟩

/-- Witness for C2 at a one-message track whose note is due: the triggered
message is a member of the frame's output and its timestamp is within the
elapsed time. -/
theorem midi_playback_frame_correct_witness :
    (⟨100, 0, "white", 64⟩ : PlaybackMsg) ∈ (midiPlaybackFrame exPlay 500).2 ∧
    (⟨100, 0, "white", 64⟩ : PlaybackMsg).time_ms ≤ 500 - exPlay.playback_start_time := by
  have hmem : (⟨100, 0, "white", 64⟩ : PlaybackMsg) ∈ (midiPlaybackFrame exPlay 500).2 := by
    norm_num [midiPlaybackFrame, frameTriggers, advanceList, exPlay]
  exact ⟨hmem, (midi_playback_frame_correct exPlay 500).1 _ hmem⟩

theorem spaceToggle_fresh (s : LoopState) (ticks : ℚ)
    (hact : s.playback_active = false)
    (h : s.current_msg_index = 0 ∨ s.playback_messages.length ≤ s.current_msg_index) :
    spaceToggle s ticks =
      { s with
          playback_active := true,
          current_msg_index :=
            find_first_note_after s.playback_messages s.playback_start_time,
          playback_start_time := ticks - s.playback_start_time } := by
  rw [spaceToggle, if_neg (by simp [hact]), if_pos h]

theorem spaceToggle_resume (s : LoopState) (ticks : ℚ)
    (hact : s.playback_active = false) (h0 : 0 < s.current_msg_index)
    (hlen : s.current_msg_index < s.playback_messages.length) :
    spaceToggle s ticks =
      { s with
          playback_active := true,
          playback_start_time :=
            ticks - (s.playback_messages.getD s.current_msg_index defaultMsg).time_ms } := by
  rw [spaceToggle, if_neg (by simp [hact]), if_neg (by push_neg; omega)]

/-- C8 counterexample: at the very first start (track loaded, cursor 0,
inactive, `playback_start_time` still 135000 ms), toggling playback on does
NOT reset the cursor to 0 — with events at 1000 and 2000 ms it seeks to
index 2. -/
theorem fresh_start_cursor_not_zero :
    ex8.playback_active = false ∧ ex8.current_msg_index = 0 ∧
    (spaceToggle ex8 200000).playback_active = true ∧
    (spaceToggle ex8 200000).current_msg_index = 2 := by
  refine ⟨rfl, rfl, ?_, ?_⟩ <;>
    norm_num [spaceToggle, ex8, find_first_note_after, initial_playback_start_time]

/-- C8 amended: on a fresh start or restart (toggling playback on with the
cursor at 0 or at/past the end), the cursor is set to
`find_first_note_after(playback_start_time)` — a seek to the transport
position, which is 0 only when the track is empty or its first event is at
or after `playback_start_time` — and the anchor becomes
`ticks - playback_start_time`. -/
theorem fresh_start_seeks (s : LoopState) (ticks : ℚ)
    (hact : s.playback_active = false)
    (h : s.current_msg_index = 0 ∨ s.playback_messages.length ≤ s.current_msg_index) :
    (spaceToggle s ticks).playback_active = true ∧
    (spaceToggle s ticks).current_msg_index =
      find_first_note_after s.playback_messages s.playback_start_time ∧
    (spaceToggle s ticks).playback_start_time = ticks - s.playback_start_time := by
  rw [spaceToggle_fresh s ticks hact h]
  exact ⟨rfl, rfl, rfl⟩

/-- Witness for C8 (amended) at the first-start state: the cursor after the
toggle is the seek result. -/
theorem fresh_start_seeks_witness :
    (ex8.playback_active = false ∧ ex8.current_msg_index = 0) ∧
    (spaceToggle ex8 200000).current_msg_index =
      find_first_note_after ex8.playback_messages ex8.playback_start_time :=
  ⟨⟨rfl, rfl⟩, (fresh_start_seeks ex8 200000 rfl (Or.inl rfl)).2.1⟩

/-- C10: resuming from a mid-track pause anchors the transport at
`ticks - playback_messages[current_msg_index][0]`, keeps the cursor where it
was, and makes exactly the next unplayed event due immediately: it is the
first message triggered by the following frame, and it stays due at every
later tick. -/
theorem resume_anchors_next_event (s : LoopState) (ticks : ℚ)
    (hact : s.playback_active = false) (h0 : 0 < s.current_msg_index)
    (hlen : s.current_msg_index < s.playback_messages.length) :
    (spaceToggle s ticks).playback_start_time =
      ticks - (s.playback_messages.getD s.current_msg_index defaultMsg).time_ms ∧
    (spaceToggle s ticks).current_msg_index = s.current_msg_index ∧
    (spaceToggle s ticks).playback_active = true ∧
    (∀ t2 : ℚ, ticks ≤ t2 →
      (s.playback_messages.getD s.current_msg_index defaultMsg).time_ms ≤
        t2 - (spaceToggle s ticks).playback_start_time) ∧
    (midiPlaybackFrame (spaceToggle s ticks) ticks).2.head? =
      some (s.playback_messages.getD s.current_msg_index defaultMsg) := by
  rw [spaceToggle_resume s ticks hact h0 hlen]
  refine ⟨rfl, rfl, rfl, fun t2 ht => by dsimp only; linarith, ?_⟩
  rw [midiPlaybackFrame_snd, if_pos ⟨rfl, hlen⟩]
  show (advanceList
      (ticks - (ticks - (s.playback_messages.getD s.current_msg_index defaultMsg).time_ms))
      (s.playback_messages.drop s.current_msg_index)).head? =
    some (s.playback_messages.getD s.current_msg_index defaultMsg)
  rw [show s.playback_messages.drop s.current_msg_index =
      (s.playback_messages.getD s.current_msg_index defaultMsg) ::
        s.playback_messages.drop (s.current_msg_index + 1) by
    rw [List.getD_eq_getElem _ _ hlen]
    exact List.drop_eq_getElem_cons hlen]
  rw [advanceList, if_pos (by linarith)]
  rfl

/-- Witness for C10 at a two-message track paused at index 1: the anchor
after resuming at tick 5000 is `5000 - 2000`, and the next frame's first
triggered message is that event. -/
theorem resume_anchors_next_event_witness :
    (exPause.playback_active = false ∧ 0 < exPause.current_msg_index ∧
      exPause.current_msg_index < exPause.playback_messages.length) ∧
    (spaceToggle exPause 5000).playback_start_time =
      5000 - (exPause.playback_messages.getD exPause.current_msg_index defaultMsg).time_ms ∧
    (midiPlaybackFrame (spaceToggle exPause 5000) 5000).2.head? =
      some (exPause.playback_messages.getD exPause.current_msg_index defaultMsg) :=
  ⟨⟨rfl, by decide, by decide⟩,
   (resume_anchors_next_event exPause 5000 rfl (by decide) (by decide)).1,
   (resume_anchors_next_event exPause 5000 rfl (by decide) (by decide)).2.2.2.2⟩

end Arpeggio
